import Mathlib

/-!
Verification development for the `nostr-zap-listener` repository
(`listen_zaps.py`): a shallow embedding of the zap-receipt ingestion and
amount-resolution pipeline, together with theorems settling the stated
properties of the specification against the code.

Conventions of the embedding:
* Python strings are Lean `String`s; character-level operations are done on
  `List Char` (`String.data`) so that everything reduces in the kernel.
  `str.lower`/`str.strip` are modelled for the ASCII range (`pyLower`,
  `pyStrip`); the inputs exercised by the pipeline are ASCII.
* Python's heterogeneous JSON-like runtime values are modelled by `JVal`
  (None / bool / int / str / list / dict).  JSON floats, `NaN`, `Infinity`
  and `\uXXXX` surrogate pairs are outside the modelled fragment; a
  `description` payload containing them is treated as unparseable.
* Machine integers are `Int` (Python ints are unbounded).  Python's `//`
  is `Int.fdiv` (floor), `int()` applied to `Decimal` truncates toward
  zero (`decTrunc`).
* Fallible calls return `Option`/`Except`; the sqlite `INSERT` and the
  relay `publish` calls, whose failures depend on the environment, take an
  explicit outcome oracle (`Oracle`).
-/

namespace ZapListener

/-- Runtime value of the dynamically-typed payloads the listener handles:
Python `None`, `bool`, `int`, `str`, `list`, `dict` (with string keys, as
produced by `json.loads`). -/
inductive JVal where
  | null : JVal
  | bool : Bool → JVal
  | num : Int → JVal
  | str : String → JVal
  | arr : List JVal → JVal
  | obj : List (String × JVal) → JVal
deriving Inhabited

/-- Python truthiness of a `JVal`: `None`, `False`, `0`, `""`, `[]`, and
the empty dict are falsy. -/
def jTruthy : JVal → Bool
  | .null => false
  | .bool b => b
  | .num n => !(n == 0)
  | .str s => !(s == "")
  | .arr xs => !xs.isEmpty
  | .obj fs => !fs.isEmpty

/-- Python `a or b` on runtime values: the first operand if truthy,
otherwise the second. -/
def pyOrJ (a b : JVal) : JVal := if jTruthy a then a else b

/-- Python `v == s` between a runtime value and a string literal: true
exactly when `v` is that string (comparisons across types are `False`). -/
def jEqStr (v : JVal) (s : String) : Bool :=
  match v with
  | .str t => t == s
  | _ => false

/-- Python `==` between two scalar runtime values (the only values that can
reach the sqlite `zapper_pubkey` column: binding a list or dict as an SQL
parameter raises before the row is written). -/
def jEqScalar : JVal → JVal → Bool
  | .null, .null => true
  | .bool a, .bool b => a == b
  | .num a, .num b => a == b
  | .str a, .str b => a == b
  | _, _ => false

/-- Python `dict.get(k)` on a JSON object, `None` when the key is absent.
`json.loads` keeps the last of duplicate keys, hence the left fold. -/
def jGet (fs : List (String × JVal)) (k : String) : JVal :=
  fs.foldl (fun acc p => if p.1 == k then p.2 else acc) JVal.null

/-- Python `str(v)` for the values fed to `int(str(tg[1]).strip())`.
Container reprs are abbreviated: the only property used downstream is
that `int()` rejects them, which holds since they contain non-digits. -/
def pyStrJ : JVal → String
  | .str s => s
  | .num n => toString n
  | .bool true => "True"
  | .bool false => "False"
  | .null => "None"
  | .arr _ => "[...]"
  | .obj _ => "\x7b...\x7d"

/-- ASCII lowering of one character, the fragment of `str.lower` the
invoice parser relies on. -/
def charLower (c : Char) : Char :=
  if 'A' ≤ c && c ≤ 'Z' then Char.ofNat (c.toNat + 32) else c

/-- Python whitespace stripped by `str.strip` (ASCII fragment). -/
def isPySpace (c : Char) : Bool :=
  c == ' ' || c == '\t' || c == '\n' || c == '\r' || c == '\x0b' || c == '\x0c'

/-- Python `str.strip` on a character list. -/
def pyStrip (cs : List Char) : List Char :=
  ((cs.dropWhile isPySpace).reverse.dropWhile isPySpace).reverse

/-- Python `str.lower` on a character list (ASCII fragment). -/
def pyLower (cs : List Char) : List Char := cs.map charLower

/-- Whether `pat` is a prefix of `s` (Python `str.startswith`). -/
def listStartsWith : List Char → List Char → Bool
  | _, [] => true
  | [], _ :: _ => false
  | c :: cs, p :: ps => c == p && listStartsWith cs ps

/-- Numeric value of a nonempty all-digit character list, `none` otherwise. -/
def digitsToNat : List Char → Option Nat
  | [] => none
  | cs =>
    if cs.all Char.isDigit then
      some (cs.foldl (fun a c => a * 10 + (c.toNat - 48)) 0)
    else none

/-- Python `int(s)` on a string: surrounding whitespace, an optional sign,
then decimal digits (ASCII fragment; digit-grouping underscores are not
modelled). -/
def pyIntOfStr (s : String) : Option Int :=
  match pyStrip s.data with
  | '+' :: ds => (digitsToNat ds).map Int.ofNat
  | '-' :: ds => (digitsToNat ds).map (fun n => -(n : Int))
  | ds => (digitsToNat ds).map Int.ofNat

/-- Result of splitting a decimal literal into its parts. -/
structure DecParts where
  sign : Bool        -- true when negative
  intDigits : List Char
  fracDigits : List Char
  expNeg : Bool
  expDigits : List Char

/-- Splits the coefficient `digits [. digits]` / `. digits` and an optional
`e[sign]digits` exponent; `none` when the shape is not a (finite) decimal
numeric string.  `Infinity`/`NaN` forms are mapped to `none`: downstream
the code applies `int(...)`, which raises on them, and the surrounding
`try` turns that into the same `None` result. -/
def splitDecimal (cs : List Char) : Option DecParts := Id.run do
  let (sign, cs) :=
    match cs with
    | '+' :: t => (false, t)
    | '-' :: t => (true, t)
    | t => (false, t)
  let intDigits := cs.takeWhile Char.isDigit
  let cs := cs.drop intDigits.length
  let (hasDot, fracDigits, cs) :=
    match cs with
    | '.' :: t => (true, t.takeWhile Char.isDigit, t.drop (t.takeWhile Char.isDigit).length)
    | t => (false, ([] : List Char), t)
  if intDigits.isEmpty && (!hasDot || fracDigits.isEmpty) then
    return none
  match cs with
  | [] => return some ⟨sign, intDigits, fracDigits, false, []⟩
  | 'e' :: t =>
    let (eNeg, t) :=
      match t with
      | '+' :: u => (false, u)
      | '-' :: u => (true, u)
      | u => (false, u)
    let eDigits := t.takeWhile Char.isDigit
    if eDigits.isEmpty || !(t.drop eDigits.length).isEmpty then
      return none
    return some ⟨sign, intDigits, fracDigits, eNeg, eDigits⟩
  | _ => return none

/-- Value of a digit list, read as zero when empty (for coefficients whose
integer or fractional side is absent, as in `"5."` or `".5"`). -/
def digitVal (ds : List Char) : Nat :=
  ds.foldl (fun a c => a * 10 + (c.toNat - 48)) 0

/-- Exact value of a finite `Decimal`: `±mant · 10^pow10`.  Exact decimal
arithmetic; faithful to Python `Decimal` for results within the default
28-significant-digit context precision, which covers every amount the
invoice grammar can realistically carry. -/
structure DecVal where
  neg : Bool
  mant : Nat
  pow10 : Int

/-- Python `Decimal(s)` restricted to finite values: leading/trailing
whitespace and digit-grouping underscores are removed, then the decimal
numeric string grammar is applied.  The input reaching this from the
invoice parser is already lowercased. -/
def pyDecimal (cs : List Char) : Option DecVal := do
  let cs := (pyStrip cs).filter (fun c => !(c == '_'))
  let p ← splitDecimal cs
  let e : Int := if p.expNeg then -(digitVal p.expDigits : Int) else (digitVal p.expDigits : Int)
  return ⟨p.sign, digitVal (p.intDigits ++ p.fracDigits), e - p.fracDigits.length⟩

/-- Multiplication of a `Decimal` value by `10^k` (all the arithmetic
`msat_from_bolt11` performs is of this shape). -/
def decShift (d : DecVal) (k : Int) : DecVal := ⟨d.neg, d.mant, d.pow10 + k⟩

/-- Python `int(d)` on a finite `Decimal`: truncation toward zero. -/
def decTrunc (d : DecVal) : Int :=
  let mag : Nat :=
    if d.pow10 ≥ 0 then d.mant * 10 ^ d.pow10.toNat
    else d.mant / 10 ^ (-d.pow10).toNat
  if d.neg then -(mag : Int) else (mag : Int)

/-- Embedding of `msat_from_bolt11` (`listen_zaps.py` lines 86-143): strips
and lowercases the invoice, finds the FIRST literal `'1'` in the whole
string, takes everything between `"ln"` and that position as the
human-readable part, drops the leading alphabetic currency code, and
converts the remaining amount (optional `m`/`u`/`n`/`p` multiplier,
decimal number) to millisatoshi, truncated to an integer.  An empty
amount field, or any parse failure, yields `none`. -/
def msat_from_bolt11 (pr : String) : Option Int :=
  let s := pyLower (pyStrip pr.data)
  if !listStartsWith s ['l', 'n'] then none
  else
    match s.findIdx? (fun c => c == '1') with
    | none => none
    | some pos1 =>
      let hrpBody := (s.drop 2).take (pos1 - 2)
      let amountPart := hrpBody.dropWhile Char.isAlpha
      if amountPart.isEmpty then none
      else
        let (suf, numStr) :=
          match amountPart.getLast? with
          | some c =>
            if c == 'm' || c == 'u' || c == 'n' || c == 'p' then
              (some c, amountPart.dropLast)
            else (none, amountPart)
          | none => (none, amountPart)
        if numStr.isEmpty then none
        else
          match pyDecimal numStr with
          | none => none
          | some val =>
            let msat : DecVal :=
              match suf with
              | some 'm' => decShift val 8
              | some 'u' => decShift val 5
              | some 'n' => decShift val 2
              | some 'p' => decShift val (-1)
              | _ => decShift val 11
            some (decTrunc msat)

/-! ### JSON (`json.loads`)

A fuel-indexed recursive-descent parser for the JSON fragment the
`description` payloads use: objects, arrays, strings with the standard
escapes (including non-surrogate `\uXXXX`), integers, `true`/`false`/
`null`.  Floats and the non-standard `NaN`/`Infinity` literals are outside
the modelled fragment and yield `none` (a whole-payload parse failure),
and `json.loads` strictness about raw control characters in strings is
not enforced.  Fuel shortage also yields `none`; the chosen fuel
`2 * length + 2` strictly exceeds the number of parser steps any input of
that length can take, so it never cuts off a parse that would succeed. -/

/-- JSON whitespace. -/
def isJsonWs (c : Char) : Bool :=
  c == ' ' || c == '\t' || c == '\n' || c == '\r'

/-- Skip JSON whitespace. -/
def skipWs (cs : List Char) : List Char := cs.dropWhile isJsonWs

/-- Hex digit value, for `\uXXXX` escapes. -/
def hexVal (c : Char) : Option Nat :=
  if '0' ≤ c && c ≤ '9' then some (c.toNat - 48)
  else if 'a' ≤ c && c ≤ 'f' then some (c.toNat - 87)
  else if 'A' ≤ c && c ≤ 'F' then some (c.toNat - 55)
  else none

/-- Parse the body of a JSON string literal (after the opening quote),
returning its characters and the input after the closing quote. -/
def parseJStr : List Char → Option (List Char × List Char)
  | [] => none
  | '"' :: rest => some ([], rest)
  | '\\' :: 'u' :: a :: b :: c :: d :: rest => do
    let ha ← hexVal a
    let hb ← hexVal b
    let hc ← hexVal c
    let hd ← hexVal d
    let (tl, rem) ← parseJStr rest
    return (Char.ofNat (((ha * 16 + hb) * 16 + hc) * 16 + hd) :: tl, rem)
  | '\\' :: e :: rest => do
    let c ← match e with
      | '"' => some '"'
      | '\\' => some '\\'
      | '/' => some '/'
      | 'b' => some '\x08'
      | 'f' => some '\x0c'
      | 'n' => some '\n'
      | 'r' => some '\r'
      | 't' => some '\t'
      | _ => none
    let (tl, rem) ← parseJStr rest
    return (c :: tl, rem)
  | c :: rest => do
    let (tl, rem) ← parseJStr rest
    return (c :: tl, rem)

/-- Parse a JSON integer (sign, no leading zeros); fails if a fraction or
exponent follows, since floats are outside the modelled fragment. -/
def parseJNum (cs : List Char) : Option (Int × List Char) :=
  let (neg, cs') :=
    match cs with
    | '-' :: t => (true, t)
    | t => (false, t)
  let ds := cs'.takeWhile Char.isDigit
  let rest := cs'.drop ds.length
  if ds.isEmpty then none
  else if ds.length > 1 && ds.headD ' ' == '0' then none
  else
    match rest with
    | '.' :: _ => none
    | 'e' :: _ => none
    | 'E' :: _ => none
    | _ =>
      let n : Int := (digitVal ds : Int)
      some (if neg then -n else n, rest)

/-- Parsing mode: a single value, the items of an array (after `[`), or
the fields of an object (after the opening brace). -/
inductive PMode where
  | pval
  | pitems
  | pfields

/-- Parser output for each mode. -/
inductive POut where
  | oval : JVal → List Char → POut
  | oitems : List JVal → List Char → POut
  | ofields : List (String × JVal) → List Char → POut

/-- The recursive-descent JSON parser, structurally recursive on fuel. -/
def pjson : Nat → PMode → List Char → Option POut
  | 0, _, _ => none
  | Nat.succ f, PMode.pval, cs =>
    match skipWs cs with
    | 'n' :: 'u' :: 'l' :: 'l' :: r => some (.oval .null r)
    | 't' :: 'r' :: 'u' :: 'e' :: r => some (.oval (.bool true) r)
    | 'f' :: 'a' :: 'l' :: 's' :: 'e' :: r => some (.oval (.bool false) r)
    | '"' :: r => do
      let (chars, rem) ← parseJStr r
      return .oval (.str ⟨chars⟩) rem
    | '[' :: r =>
      match pjson f PMode.pitems r with
      | some (.oitems vs rem) => some (.oval (.arr vs) rem)
      | _ => none
    | '\x7b' :: r =>
      match pjson f PMode.pfields r with
      | some (.ofields fs rem) => some (.oval (.obj fs) rem)
      | _ => none
    | r => do
      let (n, rem) ← parseJNum r
      return .oval (.num n) rem
  | Nat.succ f, PMode.pitems, cs =>
    match skipWs cs with
    | ']' :: r => some (.oitems [] r)
    | r =>
      match pjson f PMode.pval r with
      | some (.oval v r1) =>
        (match skipWs r1 with
          | ',' :: r2 =>
            (match pjson f PMode.pitems r2 with
              | some (.oitems vs r3) =>
                (match vs with
                  | [] =>
                    -- a `,` must be followed by another item, not `]`
                    (match skipWs r2 with
                      | ']' :: _ => none
                      | _ => some (.oitems [v] r3))
                  | _ => some (.oitems (v :: vs) r3))
              | _ => none)
          | ']' :: r2 => some (.oitems [v] r2)
          | _ => none)
      | _ => none
  | Nat.succ f, PMode.pfields, cs =>
    match skipWs cs with
    | '\x7d' :: r => some (.ofields [] r)
    | '"' :: r =>
      match parseJStr r with
      | some (key, r1) =>
        (match skipWs r1 with
          | ':' :: r2 =>
            (match pjson f PMode.pval r2 with
              | some (.oval v r3) =>
                (match skipWs r3 with
                  | ',' :: r4 =>
                    (match pjson f PMode.pfields r4 with
                      | some (.ofields fs r5) =>
                        (match fs with
                          | [] =>
                            (match skipWs r4 with
                              | '\x7d' :: _ => none
                              | _ => some (.ofields [(⟨key⟩, v)] r5))
                          | _ => some (.ofields ((⟨key⟩, v) :: fs) r5))
                      | _ => none)
                  | '\x7d' :: r4 => some (.ofields [(⟨key⟩, v)] r4)
                  | _ => none)
              | _ => none)
          | _ => none)
      | none => none
    | _ => none

/-- Embedding of `json.loads(s)` (modelled fragment): parses one JSON
value and requires only whitespace to follow. -/
def json_loads (s : String) : Option JVal :=
  match pjson (2 * s.data.length + 2) PMode.pval s.data with
  | some (.oval v rest) => if (skipWs rest).isEmpty then some v else none
  | _ => none

/-! ### Tag extraction (`parse_tag_list`, `listen_zaps.py` lines 63-82) -/

/-- Key of a Python dict used as a tag record (`t.get("name")`,
`t.get(0)`, ...): strings or ints. -/
inductive DKey where
  | ks : String → DKey
  | ki : Int → DKey
deriving DecidableEq

/-- One entry of an event's tag list, in the three runtime shapes the
extractor tolerates: a list/tuple, a dict, or any other object probed
with `getattr` (attributes that are absent or bound to `None` are both
`JVal.null`, indistinguishable to the code). -/
inductive TagEntry where
  | jlist : List JVal → TagEntry
  | jdict : List (DKey × JVal) → TagEntry
  | jobj : (name tag value values : JVal) → TagEntry

/-- Python `dict.get(k)` for the dict tag shape, `None` when absent. -/
def dictGet (fs : List (DKey × JVal)) (k : DKey) : JVal :=
  fs.foldl (fun acc p => if p.1 = k then p.2 else acc) JVal.null

/-- The `(k, v)` pair the extractor derives from one tag entry. -/
def tagKV : TagEntry → JVal × JVal
  | .jlist (k :: v :: _) => (k, v)
  | .jlist _ => (.null, .null)
  | .jdict fs =>
    (pyOrJ (dictGet fs (.ks "name")) (pyOrJ (dictGet fs (.ks "tag")) (dictGet fs (.ki 0))),
     pyOrJ (dictGet fs (.ks "value")) (dictGet fs (.ki 1)))
  | .jobj name tag value values =>
    let k := pyOrJ name tag
    let v :=
      match value with
      | .null =>
        (match values with
          | .arr (_ :: v2 :: _) => v2
          | _ => .null)
      | w => w
    (k, v)

/-- Embedding of `parse_tag_list(ev, key)`: the ordered list of values of
tags named `key`, keeping only entries where both the derived name and
value are strings. -/
def parse_tag_list (tags : List TagEntry) (key : String) : List String :=
  tags.filterMap fun t =>
    match tagKV t with
    | (.str k, .str v) => if k == key then some v else none
    | _ => none

/-! ### Amount resolution (`parse_zap`, `listen_zaps.py` lines 164-252) -/

/-- The dict `parse_zap` builds and mutates: resolved amount, payer,
referenced note, recipient lists and hinted relays. -/
structure ZapRes where
  sats : Int
  unknown : Bool
  zapper : JVal
  noteId : JVal
  recDesc : List JVal
  recEv : List String
  relays : List String

/-- The initial `res` dict of `parse_zap`. -/
def zapInit : ZapRes :=
  { sats := 0, unknown := true, zapper := .null, noteId := .null,
    recDesc := [], recEv := [], relays := [] }

/-- Step 1 of `parse_zap`: the receipt's own `amount` tag (msat), floor-
divided by 1000; a value `int()` rejects is ignored. -/
def zapStep1 (tags : List TagEntry) (r : ZapRes) : ZapRes :=
  match parse_tag_list tags "amount" with
  | a :: _ =>
    (match pyIntOfStr a with
      | some n => { r with sats := Int.fdiv n 1000, unknown := false }
      | none => r)
  | [] => r

/-- Step 2 of `parse_zap`: if the amount is still unknown or zero, decode
the receipt's `bolt11` tag; only a truthy (nonzero) msat value is used. -/
def zapStep2 (tags : List TagEntry) (r : ZapRes) : ZapRes :=
  if r.unknown || r.sats == 0 then
    match parse_tag_list tags "bolt11" with
    | b :: _ =>
      (match msat_from_bolt11 b with
        | some ms =>
          if !(ms == 0) then { r with sats := Int.fdiv ms 1000, unknown := false } else r
        | none => r)
    | [] => r
  else r

/-- One iteration of the `for tg in tags` loop over the description
request's nested tags (`e` first-wins, `p` collected, `relays` filtered
to `wss://` URLs, `amount` only when still unknown/zero and positive). -/
def descTagStep (r : ZapRes) (tg : JVal) : ZapRes :=
  match tg with
  | .arr (t0 :: rest) =>
    if jEqStr t0 "e" then
      match rest with
      | v :: _ => if jTruthy r.noteId then r else { r with noteId := v }
      | [] => r
    else if jEqStr t0 "p" then
      match rest with
      | v :: _ => { r with recDesc := r.recDesc ++ [v] }
      | [] => r
    else if jEqStr t0 "relays" then
      { r with relays := r.relays ++ rest.filterMap fun u =>
          match u with
          | .str s => if listStartsWith s.data "wss://".data then some ⟨pyStrip s.data⟩ else none
          | _ => none }
    else if jEqStr t0 "amount" then
      match rest with
      | v :: _ =>
        (match pyIntOfStr ⟨pyStrip (pyStrJ v).data⟩ with
          | some ms =>
            if (r.unknown || r.sats == 0) && ms > 0 then
              { r with sats := Int.fdiv ms 1000, unknown := false }
            else r
          | none => r)
      | [] => r
    else r
  | _ => r

/-- Step 3 of `parse_zap`: parse the `description` tag's JSON payload.
When the payload is a dict, `pubkey` is taken first (keeping the old value
if falsy) and the nested tags are folded; a truthy non-list `tags` value
makes the Python `for` raise after the `pubkey` assignment, which the
enclosing `try` swallows, so its effect equals folding nothing. -/
def zapStep3 (tags : List TagEntry) (r : ZapRes) : ZapRes :=
  match parse_tag_list tags "description" with
  | d :: _ =>
    (match json_loads d with
      | some (.obj fs) =>
        let rz := { r with zapper := pyOrJ (jGet fs "pubkey") r.zapper }
        (match pyOrJ (jGet fs "tags") (.arr []) with
          | .arr xs => xs.foldl descTagStep rz
          | _ => rz)
      | _ => r)
  | [] => r

/-- Step 4 of `parse_zap`: recipients from the receipt's own `p`/`P` tags,
then the direct `P`/`e` fallbacks for payer and note. -/
def zapStep4 (tags : List TagEntry) (r : ZapRes) : ZapRes :=
  let r1 := { r with recEv := parse_tag_list tags "p" ++ parse_tag_list tags "P" }
  let r2 :=
    if jTruthy r1.zapper then r1
    else
      match parse_tag_list tags "P" with
      | p :: _ => { r1 with zapper := .str p }
      | [] => r1
  if jTruthy r2.noteId then r2
  else
    match parse_tag_list tags "e" with
    | e :: _ => { r2 with noteId := .str e }
    | [] => r2

/-- A zap-receipt event as the listener sees it. -/
structure NEvent where
  id : String
  kind : Int
  created_at : Int
  tags : List TagEntry

/-- Embedding of `parse_zap(ev)` (`listen_zaps.py` lines 164-252). -/
def parse_zap (ev : NEvent) : ZapRes :=
  zapStep4 ev.tags (zapStep3 ev.tags (zapStep2 ev.tags (zapStep1 ev.tags zapInit)))

/-! ### Week bucketing (`week_key`, `listen_zaps.py` lines 58-60)

`datetime.fromtimestamp(ts, tz=utc).isocalendar()` via the proleptic
Gregorian civil calendar (days since the 1970-01-01 epoch) and the
ISO-8601 Thursday rule. -/

/-- Civil date `(year, month, day)` of an epoch day number. -/
def civilFromDays (z : Int) : Int × Int × Int :=
  let z := z + 719468
  let era := Int.fdiv z 146097
  let doe := (z - era * 146097).toNat
  let yoe := (doe - doe / 1460 + doe / 36524 - doe / 146096) / 365
  let doy := doe - (365 * yoe + yoe / 4 - yoe / 100)
  let mp := (5 * doy + 2) / 153
  let d := doy - (153 * mp + 2) / 5 + 1
  let m := if mp < 10 then mp + 3 else mp - 9
  let y : Int := (yoe : Int) + era * 400 + (if m ≤ 2 then 1 else 0)
  (y, (m : Int), (d : Int))

/-- Epoch day number of a civil date. -/
def daysFromCivil (y m d : Int) : Int :=
  let y := y - (if m ≤ 2 then 1 else 0)
  let era := Int.fdiv y 400
  let yoe := (y - era * 400).toNat
  let mp := (if m ≤ 2 then m + 9 else m - 3).toNat
  let doy := (153 * mp + 2) / 5 + d.toNat - 1
  let doe := yoe * 365 + yoe / 4 - yoe / 100 + doy
  era * 146097 + (doe : Int) - 719468

/-- ISO `(year, week)` of a unix timestamp (UTC). -/
def isoYearWeek (ts : Int) : Int × Int :=
  let days := Int.fdiv ts 86400
  let wd := Int.emod (days + 3) 7 + 1
  let thursday := days + (4 - wd)
  let y := (civilFromDays thursday).1
  let jan1 := daysFromCivil y 1 1
  (y, Int.fdiv (thursday - jan1) 7 + 1)

/-- Embedding of `week_key(ts)`: the label `"<ISO-year>-W<two-digit
ISO-week>"`.  Total over `Int`, whereas `datetime.fromtimestamp` raises
for timestamps whose year falls outside `datetime`'s range — another
input-determined error path this model collapses. -/
def week_key (ts : Int) : String :=
  let (y, w) := isoYearWeek ts
  toString y ++ "-W" ++ (if w < 10 then "0" ++ toString w else toString w)

/-! ### Dedup store and ingestion loop (`main`, `listen_zaps.py` 285-349) -/

/-- One row of the `zaps` table (primary key `event_id`). -/
structure ZapRecord where
  event_id : String
  zapper_pubkey : JVal
  note_id : JVal
  amount_msat : Int
  created_at : Int
  week : String

/-- Errors a sqlite `INSERT` can raise: the primary-key conflict
(`sqlite3.IntegrityError`), or any other storage error (locked database,
I/O failure, ...), whose occurrence is environmental and therefore
injected through the oracle. -/
inductive StoreErr where
  | integrityError
  | otherError
deriving DecidableEq

/-- The `INSERT INTO zaps ...` call: an environmental failure if the
oracle says so, the primary-key conflict when `event_id` exists, and an
appended row otherwise.  Input-determined failures are not modelled: the
program's parameter binding raises a further non-IntegrityError when a
bound value is a container (a dict- or list-valued `zapper_pubkey` or
`note_id`), so the oracle's `storageOk` is not an exhaustive account of
when an insert can raise. -/
def sqliteInsert (zs : List ZapRecord) (r : ZapRecord) (ok : Bool) :
    Except StoreErr (List ZapRecord) :=
  if !ok then .error .otherError
  else if zs.any (fun z => z.event_id == r.event_id) then .error .integrityError
  else .ok (zs ++ [r])

/-- The store's insert as the loop uses it (lines 312-320): the bare
`INSERT` under `try/except sqlite3.IntegrityError: pass`, returning the
new table and whether a row was inserted.  (The `otherError` branch,
never produced by `sqliteInsert` when `ok = true`, mirrors that only the
integrity conflict is swallowed.) -/
def insertIfNew (zs : List ZapRecord) (r : ZapRecord) : List ZapRecord × Bool :=
  match sqliteInsert zs r true with
  | .ok zs' => (zs', true)
  | .error .integrityError => (zs, false)
  | .error .otherError => (zs, false)

/-- Number of stored rows carrying a given event id. -/
def countById (zs : List ZapRecord) (id : String) : Nat :=
  (zs.filter (fun z => z.event_id == id)).length

/-- Whether the table satisfies its primary-key invariant: no event id
appears twice. -/
def uniqueIdsB : List ZapRecord → Bool
  | [] => true
  | z :: t => !(t.any (fun w => w.event_id == z.event_id)) && uniqueIdsB t

/-- The cursor update (lines 322-323): `last_since` advances to
`ev.created_at` only when that value is truthy and strictly greater. -/
def cursorAdvance (since t : Int) : Int :=
  if t ≠ 0 ∧ t > since then t else since

/-- The startup cursor (line 286): the stored `last_since`, defaulting to
now minus one day on first run. -/
def initSince (stored : Option Int) (now : Int) : Int :=
  match stored with
  | some v => v
  | none => now - 86400

/-- Environmental outcomes injected into one receipt's processing:
whether the sqlite write succeeds (or raises a non-integrity error) and
whether `rm.publish_event` on the open connection succeeds. -/
structure Oracle where
  storageOk : Bool
  primaryOk : Bool

/-- Listener configuration (the `.env` surface used by the loop). -/
structure Config where
  meHex : String
  allowSelfZap : Bool
  minZapSats : Int
  replyOnUnknown : Bool
  relays : List String
  thankTemplate : String
  hexToNpub : String → Option String
  now : Int

/-- A publish attempt of `safe_publish_event`: the publish on the open
connection set, or a fresh short-lived `RelayManager` broadcast to the
given relay list. -/
inductive PubAction where
  | primaryPublish
  | freshBroadcast : List String → PubAction
deriving DecidableEq

/-- Order-preserving dedup, Python `list(dict.fromkeys(...))`. -/
def dedupKeepFirst (l : List String) : List String :=
  go [] l
where
  /-- keeps the first occurrence of each element -/
  go : List String → List String → List String
  | _, [] => []
  | seen, x :: t => if seen.contains x then go seen t else x :: go (x :: seen) t

/-- Embedding of `safe_publish_event` (lines 259-273): try the open
connection; on failure broadcast once to the deduplicated union of
configured and hinted relays and return; on success additionally
broadcast to exactly the hinted relays not already configured, if any.
The returned list records the attempts in order (each broadcast's own
failure is logged and swallowed, so it does not affect the sequence). -/
def safe_publish_event (cfgRelays extraRelays : List String) (primaryOk : Bool) :
    List PubAction :=
  if primaryOk then
    let extraOnly := extraRelays.filter (fun u => !(cfgRelays.contains u))
    .primaryPublish :: (if extraOnly.isEmpty then [] else [.freshBroadcast extraOnly])
  else
    [.primaryPublish, .freshBroadcast (dedupKeepFirst (cfgRelays ++ extraRelays))]

/-- The reply note the listener publishes (kind-1 event before signing;
signing is an external capability and does not change these fields). -/
structure ReplyEvent where
  content : String
  pubkey : String
  kind : Int
  tags : List (List String)

/-- Replace every occurrence of `pat` (nonempty) in `s`; fuel-indexed so
it reduces in the kernel. -/
def replFuel : Nat → List Char → List Char → List Char → List Char
  | 0, s, _, _ => s
  | _ + 1, [], _, _ => []
  | f + 1, c :: t, pat, rep =>
    if !pat.isEmpty && listStartsWith (c :: t) pat then
      rep ++ replFuel f ((c :: t).drop pat.length) pat rep
    else
      c :: replFuel f t pat rep

/-- Python `str.replace` (for the nonempty patterns the template uses). -/
def pyReplace (s pat rep : String) : String :=
  ⟨replFuel s.data.length s.data pat.data rep.data⟩

/-- The default `THANK_TEMPLATE` from `listen_zaps.py` line 18. -/
def defaultThankTemplate : String :=
  "⚡ Thanks for the {sats} sats{who}! You\x27re currently #{rank} this week. 🙏"

/-- Embedding of `make_thank_text` (lines 155-162): the glyph for unknown
amounts, a best-effort `nostr:` mention (omitted when re-encoding fails
or the payer value is not a hex string), and the template instantiated at
`sats`/`rank`/`who`.  `format_map` with `_SafeDict` followed by the three
literal `str.replace` calls equals the replacements alone for templates
whose brace groups are plain names; `format_map`'s error on a malformed
template is outside the modelled fragment. -/
def make_thank_text (cfg : Config) (sats : Int) (unknown : Bool) (rank : Int)
    (zapper : JVal) : String :=
  let satsStr := if unknown then "⚡" else toString sats
  let npub :=
    if jTruthy zapper then
      match zapper with
      | .str s => cfg.hexToNpub s
      | _ => none
    else none
  let who :=
    match npub with
    | some np => " (nostr:" ++ np ++ ")"
    | none => ""
  let tpl := if cfg.thankTemplate == "" then defaultThankTemplate else cfg.thankTemplate
  pyReplace (pyReplace (pyReplace tpl "{sats}" satsStr) "{rank}" (toString rank)) "{who}" who

/-- Embedding of `rank_for_week` (lines 275-283): weekly totals per payer
(`GROUP BY zapper_pubkey`, groups in first-appearance order), sorted by
total descending (sqlite leaves the tie order unspecified; this model
keeps it stable), 1-based position of the payer, defaulting to 1. -/
def rank_for_week (zs : List ZapRecord) (zapper : JVal) (wk : String) : Int :=
  let inWeek := zs.filter (fun z => z.week == wk)
  let keys := groupKeys [] inWeek
  let rows := keys.map fun k =>
    (k, (inWeek.filter (fun z => jEqScalar z.zapper_pubkey k)).foldl
          (fun a z => a + z.amount_msat) 0)
  let sorted := sortDesc rows
  findRank 1 sorted
where
  /-- distinct `zapper_pubkey` values in first-appearance order -/
  groupKeys : List JVal → List ZapRecord → List JVal
  | acc, [] => acc.reverse
  | acc, z :: t =>
    if acc.any (fun k => jEqScalar k z.zapper_pubkey) then groupKeys acc t
    else groupKeys (z.zapper_pubkey :: acc) t
  /-- stable insertion sort, total descending -/
  insDesc : JVal × Int → List (JVal × Int) → List (JVal × Int)
  | x, [] => [x]
  | x, y :: t => if y.2 ≥ x.2 then y :: insDesc x t else x :: y :: t
  sortDesc : List (JVal × Int) → List (JVal × Int)
  | [] => []
  | x :: t => insDesc x (sortDesc t)
  /-- 1-based position of the payer, default 1 -/
  findRank : Int → List (JVal × Int) → Int
  | _, [] => 1
  | i, (k, _) :: t => if jEqScalar k zapper then i else findRank (i + 1) t

/-- The state the loop owns: the `zaps` table, the persisted cursor, and
the log of published replies with their publish attempts. -/
structure LoopState where
  zaps : List ZapRecord
  since : Int
  published : List (ReplyEvent × List PubAction)

/-- The row the loop inserts for an accepted receipt (lines 313-317). -/
def mkRecord (ev : NEvent) (data : ZapRes) : ZapRecord :=
  { event_id := ev.id,
    zapper_pubkey := pyOrJ data.zapper (.str ""),
    note_id := pyOrJ data.noteId (.str ""),
    amount_msat := data.sats * 1000,
    created_at := ev.created_at,
    week := week_key ev.created_at }

/-- The tail of one loop iteration after a completed (or conflicting)
insert: cursor advance, reply decision, rank, text, tags, publish. -/
def afterInsert (cfg : Config) (st : LoopState) (zs : List ZapRecord)
    (ev : NEvent) (data : ZapRes) (o : Oracle) : LoopState × Option StoreErr :=
  let since' := cursorAdvance st.since ev.created_at
  let zapperJ := pyOrJ data.zapper (.str "unknown")
  let shouldReply : Bool := decide (data.sats ≥ cfg.minZapSats) || (data.unknown && cfg.replyOnUnknown)
  if !shouldReply then
    ({ zaps := zs, since := since', published := st.published }, none)
  else
    let wk := week_key (if ev.created_at == 0 then cfg.now else ev.created_at)
    let rank := rank_for_week zs zapperJ wk
    let text := make_thank_text cfg data.sats data.unknown rank zapperJ
    let rtags :=
      (if jTruthy zapperJ && !(jEqStr zapperJ "unknown") then [["p", pyStrJ zapperJ]] else [])
        ++ (if jTruthy data.noteId then [["e", pyStrJ data.noteId, "", "reply"]] else [])
    let reply : ReplyEvent := { content := text, pubkey := cfg.meHex, kind := 1, tags := rtags }
    let extra := data.relays.filter (fun u => listStartsWith u.data "wss://".data)
    let acts := safe_publish_event cfg.relays extra o.primaryOk
    ({ zaps := zs, since := since', published := st.published ++ [(reply, acts)] }, none)

/-- One iteration of the ingestion loop (lines 300-344) on one drained
event: kind filter, `parse_zap`, recipient filter, insert (only the
integrity conflict is caught; any other storage error propagates),
cursor, reply.  `some err` means an uncaught exception left the loop. -/
def processOne (cfg : Config) (st : LoopState) (ev : NEvent) (o : Oracle) :
    LoopState × Option StoreErr :=
  if !(ev.kind == 9735) then (st, none)
  else
    let data := parse_zap ev
    let matchDesc := data.recDesc.any (fun v => jEqStr v cfg.meHex)
    let matchEv := data.recEv.contains cfg.meHex
    let matchSelf := cfg.allowSelfZap && jEqStr data.zapper cfg.meHex
    if !(matchDesc || matchEv || matchSelf) then (st, none)
    else
      match sqliteInsert st.zaps (mkRecord ev data) o.storageOk with
      | .error .otherError => (st, some .otherError)
      | .error .integrityError => afterInsert cfg st st.zaps ev data o
      | .ok zs => afterInsert cfg st zs ev data o

/-- The drain loop over a sequence of delivered events with their
environmental outcomes: processing stops at the first uncaught error
(which in the program unwinds past `except KeyboardInterrupt` and
terminates `main`). -/
def processEvents (cfg : Config) (st : LoopState) :
    List (NEvent × Oracle) → LoopState × Option StoreErr
  | [] => (st, none)
  | (ev, o) :: rest =>
    match processOne cfg st ev o with
    | (st', none) => processEvents cfg st' rest
    | (st', some e) => (st', some e)

/-! ### Concrete instances used by the claim theorems -/

/-- Receipt carrying both an explicit `amount` tag (21000 msat = 21 sats)
and a different amount (35000 msat = 35 sats) nested in the description
request, both positive and far below any ceiling. -/
def evC2 : NEvent :=
  { id := "ev-c2", kind := 9735, created_at := 100,
    tags := [ .jlist [.str "amount", .str "21000"],
              .jlist [.str "description",
                .str "\x7b\"pubkey\":\"aa\",\"tags\":[[\"amount\",\"35000\"]]\x7d"] ] }

/-- Receipt whose first-priority candidate is 20,000,000 sats (over the
claimed 10,000,000 ceiling) while the description carries an in-range
5,000 sats candidate. -/
def evC3 : NEvent :=
  { id := "ev-c3", kind := 9735, created_at := 100,
    tags := [ .jlist [.str "amount", .str "20000000000"],
              .jlist [.str "description",
                .str "\x7b\"pubkey\":\"aa\",\"tags\":[[\"amount\",\"5000000\"]]\x7d"] ] }

/-- Receipt whose `amount` tag is 500 msat: floors to 0 sats. -/
def evC4a : NEvent :=
  { id := "ev-c4a", kind := 9735, created_at := 1,
    tags := [.jlist [.str "amount", .str "500"]] }

/-- Receipt whose `amount` tag is negative. -/
def evC4b : NEvent :=
  { id := "ev-c4b", kind := 9735, created_at := 1,
    tags := [.jlist [.str "amount", .str "-5000"]] }

/-- A concrete ZapRecord for the store-level witnesses. -/
def rC5 : ZapRecord :=
  { event_id := "ev-c5", zapper_pubkey := .str "z", note_id := .str "n",
    amount_msat := 21000, created_at := 100, week := "2025-W41" }

/-- Receipt with no amount information at all. -/
def evC4c : NEvent :=
  { id := "ev-c4c", kind := 9735, created_at := 1, tags := [] }

/-- Receipt whose `amount` tag has an integer (non-string) value. -/
def evC10 : NEvent :=
  { id := "ev-c10", kind := 9735, created_at := 1,
    tags := [.jlist [.str "amount", .num 21000]] }

/-- Configuration used by the loop-level witnesses: identity `"me"`,
self-zaps off, 50-sat reply threshold, no reply on unknown amounts. -/
def cfgW : Config :=
  { meHex := "me", allowSelfZap := false, minZapSats := 50, replyOnUnknown := false,
    relays := ["wss://a"], thankTemplate := "", hexToNpub := fun _ => none, now := 1000 }

/-- Empty initial loop state. -/
def stW : LoopState := { zaps := [], since := 0, published := [] }

/-- A matching receipt (its own `p` tag names the configured identity). -/
def evW : NEvent :=
  { id := "ev-w1", kind := 9735, created_at := 100,
    tags := [.jlist [.str "p", .str "me"]] }

/-- A second matching receipt, delivered after `evW`. -/
def evW2 : NEvent :=
  { id := "ev-w2", kind := 9735, created_at := 200,
    tags := [.jlist [.str "p", .str "me"]] }

/-- A receipt addressed to a different identity. -/
def evOther : NEvent :=
  { id := "ev-other", kind := 9735, created_at := 100,
    tags := [.jlist [.str "p", .str "someone-else"]] }

/-! ### Helper lemmas about `parse_zap` -/

/-- A description-tag fold step never changes `sats`/`unknown` once a
nonzero amount is resolved. -/
theorem descTagStep_fix (r : ZapRes) (tg : JVal) (hu : r.unknown = false)
    (hs : r.sats ≠ 0) :
    (descTagStep r tg).sats = r.sats ∧ (descTagStep r tg).unknown = false := by
  have hz : (r.sats == 0) = false := beq_eq_false_iff_ne.mpr hs
  rcases tg with _ | b | n | s | xs | fs <;> try exact ⟨rfl, hu⟩
  rcases xs with _ | ⟨t0, rest⟩
  · exact ⟨rfl, hu⟩
  rcases rest with _ | ⟨v, t⟩
  · simp only [descTagStep]
    split_ifs <;> exact ⟨rfl, hu⟩
  · simp only [descTagStep]
    rcases hpi : pyIntOfStr ⟨pyStrip (pyStrJ v).data⟩ with _ | ms <;>
      simp only [hpi] <;>
      split_ifs <;> try exact ⟨rfl, hu⟩
    all_goals (rename_i hcond; rw [hu, hz] at hcond; simp at hcond)

/-- Folding the description tags never changes `sats`/`unknown` once a
nonzero amount is resolved. -/
theorem foldl_descTagStep_fix (xs : List JVal) (r : ZapRes) (hu : r.unknown = false)
    (hs : r.sats ≠ 0) :
    (xs.foldl descTagStep r).sats = r.sats ∧ (xs.foldl descTagStep r).unknown = false := by
  induction xs generalizing r with
  | nil => exact ⟨rfl, hu⟩
  | cons tg tl ih =>
    have h := descTagStep_fix r tg hu hs
    have := ih (descTagStep r tg) h.2 (by rw [h.1]; exact hs)
    simpa [h.1] using this

/-- Step 2 is a no-op once a nonzero amount is resolved. -/
theorem zapStep2_fix (tags : List TagEntry) (r : ZapRes) (hu : r.unknown = false)
    (hs : r.sats ≠ 0) : zapStep2 tags r = r := by
  have hz : (r.sats == 0) = false := beq_eq_false_iff_ne.mpr hs
  simp [zapStep2, hu, hz]

/-- Step 3 never changes `sats`/`unknown` once a nonzero amount is
resolved. -/
theorem zapStep3_fix (tags : List TagEntry) (r : ZapRes) (hu : r.unknown = false)
    (hs : r.sats ≠ 0) :
    (zapStep3 tags r).sats = r.sats ∧ (zapStep3 tags r).unknown = false := by
  simp only [zapStep3]
  split
  · next d tl heq =>
    rcases hj : json_loads d with _ | v
    · exact ⟨rfl, hu⟩
    rcases v with _ | b | n | s | ys | fs <;> try exact ⟨rfl, hu⟩
    dsimp only
    rcases hpo : pyOrJ (jGet fs "tags") (JVal.arr []) with _ | b | n | s | zs | gs
    · exact ⟨rfl, hu⟩
    · exact ⟨rfl, hu⟩
    · exact ⟨rfl, hu⟩
    · exact ⟨rfl, hu⟩
    · exact foldl_descTagStep_fix zs { r with zapper := pyOrJ (jGet fs "pubkey") r.zapper } hu hs
    · exact ⟨rfl, hu⟩
  · exact ⟨rfl, hu⟩

/-- Step 4 never touches `sats`/`unknown`. -/
theorem zapStep4_sats (tags : List TagEntry) (r : ZapRes) :
    (zapStep4 tags r).sats = r.sats ∧ (zapStep4 tags r).unknown = r.unknown := by
  simp only [zapStep4]
  rcases hP : parse_tag_list tags "P" with _ | ⟨p, tp⟩ <;>
    rcases hE : parse_tag_list tags "e" with _ | ⟨e, te⟩ <;>
    split_ifs <;> exact ⟨rfl, rfl⟩

/-- Once the receipt's own `amount` tag resolves to a nonzero sat value,
that value is final: the later bolt11 and description sources cannot
override it. -/
theorem parse_zap_amount_tag (ev : NEvent) (a : String) (rest : List String)
    (n : Int) (ha : parse_tag_list ev.tags "amount" = a :: rest)
    (hn : pyIntOfStr a = some n) (hnz : Int.fdiv n 1000 ≠ 0) :
    (parse_zap ev).sats = Int.fdiv n 1000 ∧ (parse_zap ev).unknown = false := by
  have h1 : (zapStep1 ev.tags zapInit).sats = Int.fdiv n 1000 ∧
      (zapStep1 ev.tags zapInit).unknown = false := by
    simp [zapStep1, ha, hn]
  have h2 : zapStep2 ev.tags (zapStep1 ev.tags zapInit) = zapStep1 ev.tags zapInit :=
    zapStep2_fix _ _ h1.2 (by rw [h1.1]; exact hnz)
  have h3 := zapStep3_fix ev.tags (zapStep1 ev.tags zapInit) h1.2 (by rw [h1.1]; exact hnz)
  have h4 := zapStep4_sats ev.tags (zapStep3 ev.tags (zapStep1 ev.tags zapInit))
  unfold parse_zap
  rw [h2]
  exact ⟨by rw [h4.1, h3.1, h1.1], by rw [h4.2, h3.2]⟩

/-- A description-tag fold step preserves the invariant that an unknown
amount is zero. -/
theorem descTagStep_inv (r : ZapRes) (tg : JVal)
    (h : r.unknown = true → r.sats = 0) :
    (descTagStep r tg).unknown = true → (descTagStep r tg).sats = 0 := by
  rcases tg with _ | b | n | s | xs | fs <;> try exact h
  rcases xs with _ | ⟨t0, rest⟩
  · exact h
  rcases rest with _ | ⟨v, t⟩
  · simp only [descTagStep]
    split_ifs <;> exact h
  · simp only [descTagStep]
    rcases hpi : pyIntOfStr ⟨pyStrip (pyStrJ v).data⟩ with _ | ms <;>
      simp only [hpi] <;>
      split_ifs <;> try exact h
    all_goals (intro hfalse; simp at hfalse)

/-- Folding description tags preserves the invariant that an unknown
amount is zero. -/
theorem foldl_descTagStep_inv (xs : List JVal) (r : ZapRes)
    (h : r.unknown = true → r.sats = 0) :
    (xs.foldl descTagStep r).unknown = true → (xs.foldl descTagStep r).sats = 0 := by
  induction xs generalizing r with
  | nil => exact h
  | cons tg tl ih => exact ih (descTagStep r tg) (descTagStep_inv r tg h)

/-- Step 1 preserves the invariant that an unknown amount is zero. -/
theorem zapStep1_inv (tags : List TagEntry) (r : ZapRes)
    (h : r.unknown = true → r.sats = 0) :
    (zapStep1 tags r).unknown = true → (zapStep1 tags r).sats = 0 := by
  simp only [zapStep1]
  split
  · next a tl heq =>
    rcases hn : pyIntOfStr a with _ | n
    · exact h
    · intro hf; simp at hf
  · exact h

/-- Step 2 preserves the invariant that an unknown amount is zero. -/
theorem zapStep2_inv (tags : List TagEntry) (r : ZapRes)
    (h : r.unknown = true → r.sats = 0) :
    (zapStep2 tags r).unknown = true → (zapStep2 tags r).sats = 0 := by
  simp only [zapStep2]
  split_ifs
  · split
    · next b tl heq =>
      rcases hm : msat_from_bolt11 b with _ | ms
      · exact h
      · dsimp only
        split_ifs
        · intro hf; simp at hf
        · exact h
    · exact h
  · exact h

/-- Step 3 preserves the invariant that an unknown amount is zero. -/
theorem zapStep3_inv (tags : List TagEntry) (r : ZapRes)
    (h : r.unknown = true → r.sats = 0) :
    (zapStep3 tags r).unknown = true → (zapStep3 tags r).sats = 0 := by
  simp only [zapStep3]
  split
  · next d tl heq =>
    rcases hj : json_loads d with _ | v
    · exact h
    rcases v with _ | b | n | s | ys | fs <;> try exact h
    dsimp only
    rcases hpo : pyOrJ (jGet fs "tags") (JVal.arr []) with _ | b | n | s | zs | gs
    · exact h
    · exact h
    · exact h
    · exact h
    · exact foldl_descTagStep_inv zs { r with zapper := pyOrJ (jGet fs "pubkey") r.zapper } h
    · exact h
  · exact h

/-! ### Claim theorems -/

/-- C1: of the round-trip values the specification lists for the bolt11
amount decoder, `"lnbc300n1..."` (30000 msat) and `"lnbc420n1..."`
(42000 msat) and the amountless `none` hold, but `"lnbc10.5u1..."` and
`"lnbc1m1..."` return `none` instead of the promised 1,050,000 msat and
10,000,000,000 msat: the decoder searches for the first literal `'1'` in
the whole string, and these amounts contain the digit `1`, so the amount
field is cut off before it starts.  This contradicts the function's own
docstring (`lnbc10.5u1... -> 10.5u -> 1_050_000 msat`), so the code, not
the claim, is wrong. -/
theorem c1_decoder_roundtrip_divergence :
    msat_from_bolt11 "lnbc300n1pvjluez" = some 30000 ∧
    msat_from_bolt11 "lnbc420n1pvjluez" = some 42000 ∧
    msat_from_bolt11 "lnbc1pvjluez" = none ∧
    msat_from_bolt11 "lnbc10.5u1pvjluez" = none ∧
    msat_from_bolt11 "lnbc1m1pvjluez" = none :=
  ⟨rfl, rfl, rfl, rfl, rfl⟩

/-- C2 counterexample: a receipt carrying a 21-sat explicit `amount` tag
and a different 35-sat request-embedded amount resolves to 21 sats (the
receipt tag), not to the request-embedded 35 sats the claim's
request-first priority order requires. -/
theorem c2_counterexample :
    (parse_zap evC2).sats = 21 ∧ (parse_zap evC2).unknown = false ∧
    (parse_zap evC2).sats ≠ 35 :=
  ⟨rfl, rfl, by decide⟩

/-- C2 (amended): candidates are consulted in the priority order receipt
`amount` tag, then `bolt11` invoice, then request-embedded amount: a
receipt `amount` tag that parses to a nonzero sat value determines the
result, and the later sources are consulted only while the amount is
still unknown or zero. -/
theorem c2_receipt_amount_tag_first (ev : NEvent) (a : String)
    (rest : List String) (n : Int)
    (ha : parse_tag_list ev.tags "amount" = a :: rest)
    (hn : pyIntOfStr a = some n) (hnz : Int.fdiv n 1000 ≠ 0) :
    (parse_zap ev).sats = Int.fdiv n 1000 ∧ (parse_zap ev).unknown = false :=
  parse_zap_amount_tag ev a rest n ha hn hnz

/-- C2 witness: the amended priority at the concrete receipt `evC2`. -/
theorem c2_receipt_amount_tag_first_witness :
    (parse_zap evC2).sats = Int.fdiv 21000 1000 ∧ (parse_zap evC2).unknown = false :=
  c2_receipt_amount_tag_first evC2 "21000" [] 21000 rfl rfl (by decide)

/-- C3 counterexample: a first-priority candidate of 20,000,000 sats
(over the claimed default ceiling of 10,000,000) is not excluded: the
receipt resolves to 20,000,000 sats instead of falling through to the
in-range 5,000-sat description candidate. -/
theorem c3_counterexample :
    (parse_zap evC3).sats = 20000000 ∧ (parse_zap evC3).unknown = false ∧
    (parse_zap evC3).sats ≠ 5000 :=
  ⟨rfl, rfl, by decide⟩

/-- C3 (amended): no sanity ceiling exists anywhere in the code: a
candidate of any magnitude is accepted as-is, and a first-priority
candidate whose sat value exceeds ten million still determines the
result instead of being excluded. -/
theorem c3_no_ceiling_applied (ev : NEvent) (a : String) (rest : List String)
    (n : Int) (ha : parse_tag_list ev.tags "amount" = a :: rest)
    (hn : pyIntOfStr a = some n) (hbig : Int.fdiv n 1000 > 10000000) :
    (parse_zap ev).sats = Int.fdiv n 1000 ∧ (parse_zap ev).sats > 10000000 ∧
    (parse_zap ev).unknown = false := by
  have hnz : Int.fdiv n 1000 ≠ 0 := by omega
  have h := parse_zap_amount_tag ev a rest n ha hn hnz
  exact ⟨h.1, by rw [h.1]; exact hbig, h.2⟩

/-- C3 witness: the over-ceiling candidate of `evC3` is accepted. -/
theorem c3_no_ceiling_applied_witness :
    (parse_zap evC3).sats = Int.fdiv 20000000000 1000 ∧
    (parse_zap evC3).sats > 10000000 ∧ (parse_zap evC3).unknown = false :=
  c3_no_ceiling_applied evC3 "20000000000" [] 20000000000 rfl rfl (by decide)

/-- C4 counterexample: the invariant `unknown = true ⇔ sats = 0` fails in
both directions of its consequences: a 500-msat `amount` tag floors to
`sats = 0` with `unknown = false`, and a negative `amount` tag yields
`sats = -5` with `unknown = false` (the receipt `amount`-tag path filters
neither non-positive nor zero-flooring values). -/
theorem c4_counterexample :
    ((parse_zap evC4a).unknown = false ∧ (parse_zap evC4a).sats = 0) ∧
    ((parse_zap evC4b).unknown = false ∧ (parse_zap evC4b).sats = -5) :=
  ⟨⟨rfl, rfl⟩, ⟨rfl, rfl⟩⟩

/-- C4 (amended): only one direction of the claimed invariant holds:
whenever resolution reports the amount unknown, `sats` is 0.  The
converse fails, and `sats` may be zero or negative with
`unknown = false`, because the receipt `amount`-tag path does not filter
non-positive or zero-flooring candidates. -/
theorem c4_unknown_imp_zero (ev : NEvent) :
    (parse_zap ev).unknown = true → (parse_zap ev).sats = 0 := by
  have base : zapInit.unknown = true → zapInit.sats = 0 := fun _ => rfl
  have i1 := zapStep1_inv ev.tags zapInit base
  have i2 := zapStep2_inv ev.tags _ i1
  have i3 := zapStep3_inv ev.tags _ i2
  have h4 := zapStep4_sats ev.tags
    (zapStep3 ev.tags (zapStep2 ev.tags (zapStep1 ev.tags zapInit)))
  intro hu
  unfold parse_zap at hu ⊢
  rw [h4.2] at hu
  rw [h4.1]
  exact i3 hu

/-- C4 witness: a receipt with no amount information resolves to
`unknown = true`, hence `sats = 0`. -/
theorem c4_unknown_imp_zero_witness : (parse_zap evC4c).sats = 0 :=
  c4_unknown_imp_zero evC4c rfl

/-- C10: the tag extractor keeps only entries whose derived name and
value are both strings: a pair-shaped entry with a matching name but an
integer value (such as `["amount", 21000]`), or with a non-string name,
contributes nothing, and consequently such an amount never reaches
amount resolution (the receipt `evC10` resolves to unknown). -/
theorem c10_tag_extractor_string_values :
    (∀ (key : String) (n : Int) (ts : List TagEntry),
        parse_tag_list (TagEntry.jlist [.str key, .num n] :: ts) key =
          parse_tag_list ts key) ∧
    (∀ (m : Int) (v : String) (key : String) (ts : List TagEntry),
        parse_tag_list (TagEntry.jlist [.num m, .str v] :: ts) key =
          parse_tag_list ts key) ∧
    ((parse_zap evC10).unknown = true ∧ (parse_zap evC10).sats = 0) := by
  refine ⟨?_, ?_, rfl, rfl⟩
  · intro key n ts
    simp [parse_tag_list, tagKV]
  · intro m v key ts
    simp [parse_tag_list, tagKV]

/-! ### Store and loop lemmas (claims C5-C9) -/

/-- A store with no row for `id` counts zero rows for it. -/
theorem countById_zero (zs : List ZapRecord) (id : String)
    (h : (zs.any fun z => z.event_id == id) = false) : countById zs id = 0 := by
  induction zs with
  | nil => rfl
  | cons z t ih =>
    simp only [List.any_cons, Bool.or_eq_false_iff] at h
    have ht := ih h.2
    unfold countById at ht ⊢
    simp [List.filter_cons, h.1, ht]

/-- Under the primary-key invariant, a store containing a row for `id`
counts exactly one row for it. -/
theorem countById_one (zs : List ZapRecord) (id : String)
    (hu : uniqueIdsB zs = true)
    (h : (zs.any fun z => z.event_id == id) = true) : countById zs id = 1 := by
  induction zs with
  | nil => simp at h
  | cons z t ih =>
    simp only [uniqueIdsB, Bool.and_eq_true, Bool.not_eq_true'] at hu
    by_cases hz : (z.event_id == id) = true
    · have hid : z.event_id = id := by simpa using hz
      have ht : (t.any fun w => w.event_id == id) = false := by
        rw [← hid]; exact hu.1
      have h0 := countById_zero t id ht
      unfold countById at h0 ⊢
      simp [List.filter_cons, hz, h0]
    · have hz' : (z.event_id == id) = false := by simpa using hz
      simp only [List.any_cons, hz', Bool.false_or] at h
      have := ih hu.2 h
      unfold countById at this ⊢
      simp [List.filter_cons, hz', this]

/-- The cursor never decreases in one update. -/
theorem cursorAdvance_ge (since t : Int) : since ≤ cursorAdvance since t := by
  unfold cursorAdvance
  split_ifs with h
  · omega
  · exact le_refl _

/-- A cursor update that changed the value moved it to `t`, and only
because `t` strictly exceeded the old value. -/
theorem cursorAdvance_change (since t : Int) (h : cursorAdvance since t ≠ since) :
    cursorAdvance since t = t ∧ t > since := by
  unfold cursorAdvance at *
  split_ifs at h ⊢ with hc
  · exact ⟨rfl, hc.2⟩
  · exact absurd rfl h

/-- The post-insert tail of an iteration always sets the cursor by
`cursorAdvance`. -/
theorem afterInsert_since (cfg : Config) (st : LoopState) (zs : List ZapRecord)
    (ev : NEvent) (data : ZapRes) (o : Oracle) :
    (afterInsert cfg st zs ev data o).1.since = cursorAdvance st.since ev.created_at := by
  simp only [afterInsert]
  split_ifs <;> rfl

/-- The post-insert tail of an iteration never raises. -/
theorem afterInsert_snd (cfg : Config) (st : LoopState) (zs : List ZapRecord)
    (ev : NEvent) (data : ZapRes) (o : Oracle) :
    (afterInsert cfg st zs ev data o).2 = none := by
  simp only [afterInsert]
  split_ifs <;> rfl

/-- One iteration leaves the cursor unchanged or applies `cursorAdvance`. -/
theorem processOne_fst_since (cfg : Config) (st : LoopState) (ev : NEvent) (o : Oracle) :
    (processOne cfg st ev o).1.since = st.since ∨
    (processOne cfg st ev o).1.since = cursorAdvance st.since ev.created_at := by
  simp only [processOne]
  split_ifs
  · exact Or.inl rfl
  · exact Or.inl rfl
  · rcases hins : sqliteInsert st.zaps (mkRecord ev (parse_zap ev)) o.storageOk with e | zs
    · rcases e with _ | _
      · exact Or.inr (afterInsert_since cfg st st.zaps ev (parse_zap ev) o)
      · exact Or.inl rfl
    · exact Or.inr (afterInsert_since cfg st zs ev (parse_zap ev) o)

/-- One iteration never decreases the cursor. -/
theorem processOne_since_ge (cfg : Config) (st : LoopState) (ev : NEvent) (o : Oracle) :
    st.since ≤ (processOne cfg st ev o).1.since := by
  rcases processOne_fst_since cfg st ev o with h | h
  · rw [h]
  · rw [h]; exact cursorAdvance_ge st.since ev.created_at

/-- If an iteration changed the cursor, it moved it to the receipt's
timestamp, which strictly exceeded the old value. -/
theorem processOne_since_change (cfg : Config) (st : LoopState) (ev : NEvent)
    (o : Oracle) (h : (processOne cfg st ev o).1.since ≠ st.since) :
    (processOne cfg st ev o).1.since = ev.created_at ∧ ev.created_at > st.since := by
  rcases processOne_fst_since cfg st ev o with h' | h'
  · exact absurd h' h
  · rw [h'] at h ⊢
    exact cursorAdvance_change st.since ev.created_at h

/-- The drain loop never decreases the cursor. -/
theorem processEvents_since_ge (cfg : Config) :
    ∀ (evs : List (NEvent × Oracle)) (st : LoopState),
      st.since ≤ (processEvents cfg st evs).1.since := by
  intro evs
  induction evs with
  | nil => intro st; exact le_refl _
  | cons p rest ih =>
    intro st
    rcases p with ⟨ev, o⟩
    have hstep := processOne_since_ge cfg st ev o
    simp only [processEvents]
    rcases hp : processOne cfg st ev o with ⟨st', e⟩
    rw [hp] at hstep
    rcases e with _ | err
    · exact le_trans hstep (ih st')
    · exact hstep

/-- Membership is preserved by the keep-first dedup, generalized over the
already-seen accumulator. -/
theorem mem_dedupKeepFirst_go (a : String) :
    ∀ (l seen : List String), seen.contains a = false → a ∈ l →
      a ∈ dedupKeepFirst.go seen l := by
  intro l
  induction l with
  | nil => intro seen _ hmem; simp at hmem
  | cons x t ih =>
    intro seen hseen hmem
    by_cases hax : a = x
    · subst hax
      simp only [dedupKeepFirst.go, hseen]
      simp
    · have hmem' : a ∈ t := by
        rcases List.mem_cons.mp hmem with h | h
        · exact absurd h hax
        · exact h
      simp only [dedupKeepFirst.go]
      split_ifs with hx
      · exact ih seen hseen hmem'
      · refine List.mem_cons.mpr (Or.inr ?_)
        refine ih (x :: seen) ?_ hmem'
        simp only [List.contains_cons, Bool.or_eq_false_iff]
        exact ⟨beq_eq_false_iff_ne.mpr hax, hseen⟩

/-- Membership is preserved by the keep-first dedup. -/
theorem mem_dedupKeepFirst (a : String) (l : List String) (h : a ∈ l) :
    a ∈ dedupKeepFirst l :=
  mem_dedupKeepFirst_go a l [] rfl h

/-- C5: inserting a record whose `event_id` is already stored is
idempotent: with the primary-key invariant, after a first insert the
store holds exactly one row for that id, a second insert returns the
store unchanged and reports `inserted = false`, and the underlying SQL
insert raises exactly the integrity conflict the loop catches (the
normal duplicate path, not a failure). -/
theorem c5_insert_idempotent (zs : List ZapRecord) (r : ZapRecord)
    (h : uniqueIdsB zs = true) :
    (insertIfNew (insertIfNew zs r).1 r).1 = (insertIfNew zs r).1 ∧
    (insertIfNew (insertIfNew zs r).1 r).2 = false ∧
    countById (insertIfNew zs r).1 r.event_id = 1 ∧
    sqliteInsert (insertIfNew zs r).1 r true = .error .integrityError := by
  by_cases hmem : (zs.any fun z => z.event_id == r.event_id) = true
  · have hsql : sqliteInsert zs r true = .error .integrityError := by
      simp [sqliteInsert, hmem]
    have h1 : insertIfNew zs r = (zs, false) := by simp [insertIfNew, hsql]
    rw [h1]
    exact ⟨by simp [insertIfNew, hsql], by simp [insertIfNew, hsql],
      countById_one zs r.event_id h hmem, hsql⟩
  · have hmem' : (zs.any fun z => z.event_id == r.event_id) = false := by
      simpa using hmem
    have h1 : insertIfNew zs r = (zs ++ [r], true) := by
      simp [insertIfNew, sqliteInsert, hmem']
    rw [h1]
    have hany : ((zs ++ [r]).any fun z => z.event_id == r.event_id) = true := by
      simp [List.any_append]
    have hsql : sqliteInsert (zs ++ [r]) r true = .error .integrityError := by
      simp [sqliteInsert, hany]
    refine ⟨by simp [insertIfNew, hsql], by simp [insertIfNew, hsql], ?_, hsql⟩
    have h0 := countById_zero zs r.event_id hmem'
    unfold countById at h0 ⊢
    rw [List.filter_append, List.length_append, h0]
    simp

/-- C5 witness: the double insert of the concrete record `rC5` into the
empty store. -/
theorem c5_insert_idempotent_witness :
    (insertIfNew (insertIfNew [] rC5).1 rC5).1 = (insertIfNew [] rC5).1 ∧
    (insertIfNew (insertIfNew [] rC5).1 rC5).2 = false ∧
    countById (insertIfNew [] rC5).1 rC5.event_id = 1 ∧
    sqliteInsert (insertIfNew [] rC5).1 rC5 true = .error .integrityError :=
  c5_insert_idempotent [] rC5 rfl

/-- C6: the persisted cursor is monotonically non-decreasing over any
processed event sequence; a changed cursor always equals the receipt's
timestamp and only when that timestamp strictly exceeds the previous
value; and on first run (no stored cursor) it defaults to now minus one
day. -/
theorem c6_cursor_monotone :
    (∀ (cfg : Config) (st : LoopState) (evs : List (NEvent × Oracle)),
        st.since ≤ (processEvents cfg st evs).1.since) ∧
    (∀ (cfg : Config) (st : LoopState) (ev : NEvent) (o : Oracle),
        (processOne cfg st ev o).1.since ≠ st.since →
          (processOne cfg st ev o).1.since = ev.created_at ∧
          ev.created_at > st.since) ∧
    (∀ now : Int, initSince none now = now - 86400) :=
  ⟨fun cfg st evs => processEvents_since_ge cfg evs st,
   processOne_since_change,
   fun _ => rfl⟩

/-- C6 witness: a concrete matching receipt advances the cursor from 0 to
its timestamp 100, and the first-run default. -/
theorem c6_cursor_monotone_witness :
    stW.since ≤ (processEvents cfgW stW [(evW, ⟨true, true⟩)]).1.since ∧
    ((processOne cfgW stW evW ⟨true, true⟩).1.since = evW.created_at ∧
      evW.created_at > stW.since) ∧
    initSince none 1000000 = 1000000 - 86400 :=
  ⟨c6_cursor_monotone.1 cfgW stW [(evW, ⟨true, true⟩)],
   c6_cursor_monotone.2.1 cfgW stW evW ⟨true, true⟩ (by decide),
   c6_cursor_monotone.2.2 1000000⟩

/-- C7 counterexample: a storage error other than the integrity conflict
on the first receipt terminates the loop: the second (perfectly valid)
receipt is never processed and no row for it is ever stored, contradicting
the claim that such errors are logged and the loop continues. -/
theorem c7_counterexample :
    processEvents cfgW stW [(evW, ⟨false, true⟩), (evW2, ⟨true, true⟩)] =
      (stW, some .otherError) ∧
    ((processEvents cfgW stW [(evW, ⟨false, true⟩), (evW2, ⟨true, true⟩)]).1.zaps.any
        fun z => z.event_id == "ev-w2") = false :=
  ⟨rfl, rfl⟩

/-- C7 (amended): only the `event_id` uniqueness conflict
(`sqlite3.IntegrityError`) is caught and treated as the normal duplicate
path; any other storage error raised while processing one receipt
propagates out of the drain loop immediately, so the remaining receipts
are not processed. -/
theorem c7_uncaught_error_stops_loop (cfg : Config) (st : LoopState)
    (ev : NEvent) (o : Oracle) (rest : List (NEvent × Oracle))
    (st' : LoopState) (err : StoreErr)
    (h : processOne cfg st ev o = (st', some err)) :
    processEvents cfg st ((ev, o) :: rest) = (st', some err) := by
  simp [processEvents, h]

/-- C7 witness: the failing first receipt stops the loop with the state
unchanged and the second receipt unprocessed. -/
theorem c7_uncaught_error_stops_loop_witness :
    processEvents cfgW stW ((evW, ⟨false, true⟩) :: [(evW2, ⟨true, true⟩)]) =
      (stW, some .otherError) :=
  c7_uncaught_error_stops_loop cfgW stW evW ⟨false, true⟩
    [(evW2, ⟨true, true⟩)] stW .otherError rfl

/-- C8: a receipt none of whose recipient tags — the request's `p` tags
or the receipt's own `p`/`P` tags — name the configured identity, with
self-addressed receipts disabled, changes nothing: the store, the cursor
and the publish log are untouched and no error is raised. -/
theorem c8_recipient_filter (cfg : Config) (st : LoopState) (ev : NEvent)
    (o : Oracle) (h1 : cfg.allowSelfZap = false)
    (h2 : ((parse_zap ev).recDesc.all fun v => !(jEqStr v cfg.meHex)) = true)
    (h3 : (parse_zap ev).recEv.contains cfg.meHex = false) :
    processOne cfg st ev o = (st, none) := by
  simp only [processOne]
  split_ifs with hk hm
  · rfl
  · rfl
  · exfalso
    have hdesc : ((parse_zap ev).recDesc.any fun v => jEqStr v cfg.meHex) = false := by
      rw [List.any_eq_false]
      intro x hx
      have := List.all_eq_true.mp h2 x hx
      simpa using this
    have h3m : cfg.meHex ∉ (parse_zap ev).recEv := by simpa using h3
    simp [hdesc, h3m, h1] at hm

/-- C8 witness: the receipt addressed to `someone-else` is dropped with
no state change under the configuration whose identity is `me`. -/
theorem c8_recipient_filter_witness :
    processOne cfgW stW evOther ⟨true, true⟩ = (stW, none) :=
  c8_recipient_filter cfgW stW evOther ⟨true, true⟩ rfl (by decide) (by decide)

/-- C9 counterexample: when the primary publish fails, the function
performs only the fallback broadcast to the union of configured and
hinted relays and returns: no separate broadcast to exactly the extra
hinted relays happens, contradicting the claim that it is performed
regardless of the primary outcome. -/
theorem c9_counterexample :
    safe_publish_event ["wss://a"] ["wss://b"] false =
      [.primaryPublish, .freshBroadcast ["wss://a", "wss://b"]] ∧
    PubAction.freshBroadcast ["wss://b"] ∉
      safe_publish_event ["wss://a"] ["wss://b"] false :=
  ⟨rfl, by decide⟩

/-- C9 (amended): the separate short-lived broadcast to exactly the
hinted-but-not-configured relays happens iff the primary publish on the
open connection succeeded and that relay set is nonempty; when the
primary publish fails, the only fresh broadcast is the fallback to the
ordered deduplicated union of configured and hinted relays. -/
theorem c9_extra_broadcast_iff (cfgRelays extra : List String) (pok : Bool)
    (hne : cfgRelays ≠ []) :
    (PubAction.freshBroadcast (extra.filter fun u => !(cfgRelays.contains u)) ∈
        safe_publish_event cfgRelays extra pok) ↔
    (pok = true ∧ (extra.filter fun u => !(cfgRelays.contains u)) ≠ []) := by
  cases pok with
  | false =>
    simp only [safe_publish_event, Bool.false_eq_true, if_false]
    constructor
    · intro hmem
      exfalso
      rcases cfgRelays with _ | ⟨c, cr⟩
      · exact hne rfl
      have hcD : c ∈ dedupKeepFirst ((c :: cr) ++ extra) :=
        mem_dedupKeepFirst c _ (by simp)
      simp only [List.mem_cons, List.mem_singleton, List.not_mem_nil, or_false] at hmem
      rcases hmem with h | h
      · exact PubAction.noConfusion h
      · have heq : (extra.filter fun u => !((c :: cr).contains u)) =
            dedupKeepFirst ((c :: cr) ++ extra) := by
          injection h
        rw [← heq] at hcD
        have := List.of_mem_filter hcD
        simp at this
    · rintro ⟨hfa, _⟩
      exact absurd hfa (by simp)
  | true =>
    simp only [safe_publish_event, if_true]
    by_cases he : (extra.filter fun u => !(cfgRelays.contains u)).isEmpty = true
    · have heq : (extra.filter fun u => !(cfgRelays.contains u)) = [] := by
        simpa using he
      rw [heq]
      simp [he]
    · have hee : (extra.filter fun u => !(cfgRelays.contains u)).isEmpty = false := by
        simpa using he
      have hne' : (extra.filter fun u => !(cfgRelays.contains u)) ≠ [] := by
        simpa using hee
      simp [hee, hne']

/-- C9 witness: with a successful primary publish and one hinted relay
outside the configured list, the extra-only broadcast is performed. -/
theorem c9_extra_broadcast_iff_witness :
    PubAction.freshBroadcast (["wss://b"].filter fun u => !(["wss://a"].contains u)) ∈
      safe_publish_event ["wss://a"] ["wss://b"] true :=
  (c9_extra_broadcast_iff ["wss://a"] ["wss://b"] true (by decide)).mpr
    ⟨rfl, by decide⟩

end ZapListener
